import Mathlib

set_option autoImplicit false
set_option linter.unusedVariables false

/-!
Shallow embedding of the MuZeroGoJax training core (game.py, data.py,
losses.py) together with proofs about the frozen specification claims.

Conventions of the embedding:
* Batched tensors are total functions from `Nat` indices; shapes appear as
  explicit size parameters and as bound hypotheses in theorems.
* Go states are abstract (`S`); the gojax rules engine is an external
  collaborator and enters as explicit function parameters (`ended`,
  `nextStates`, ...), exactly as the specification's §6 interface list.
* Machine integers are `Nat`/`Int` with explicit `% 2^16` where the uint16
  representation matters; JAX's total (clamping) gather semantics is
  `min idx (T-1)`.
* Random draws (`jax.random.categorical`, `jax.random.randint`) are
  abstracted into explicitly passed draw functions; their contracts appear
  as hypotheses.
-/

namespace MuZeroGoJax

/-- Batched trajectories: `nt_states : N x T x ...` and `nt_actions : N x T`
(uint16 action indices stored as `Nat < 2^16`), as produced by
`game.new_trajectories` / `game.self_play`. -/
structure Trajectories (S : Type) where
  ntStates : Nat → Nat → S
  ntActions : Nat → Nat → Nat

/-- Value of an `Int` stored into a uint16 slot (`jnp.full(..., -1, dtype='uint16')`). -/
def uint16OfInt (i : Int) : Nat := (i % 65536).toNat

/-- Embedding of `game.new_trajectories`: every time slot holds the fresh
state produced by the rules engine (`gojax.new_states`, abstracted as `s0`)
and every action slot holds the uint16 sentinel `-1`. -/
def newTrajectories {S : Type} (s0 : S) : Trajectories S :=
  ⟨fun _ _ => s0, fun _ _ => uint16OfInt (-1)⟩

/-- Clamped read of the time axis: JAX gathers clamp an out-of-bounds index
into the valid range `[0, T-1]`. -/
def clampT (T t : Nat) : Nat := min t (T - 1)

/-- Outcomes of the two random draws consumed by `data.sample_game_data`:
`startDraw n` is the per-instance result of `jax.random.categorical` over the
non-terminal-state logits, `hypoDraw n` the per-instance result of
`jax.random.randint(minval=1, maxval=max_hypo_steps+1)`. -/
structure SampleDraws where
  startDraw : Nat → Nat
  hypoDraw : Nat → Nat

/-- Embedding of `game_len = jnp.sum(~game_ended, axis=1)` in
`data.sample_game_data`: the number of time steps `t < T` whose state is not
terminal (`gojax.get_ended`, abstracted as `ended`). -/
def gameLen {S : Type} (ended : S → Bool) (T : Nat) (tr : Trajectories S)
    (n : Nat) : Nat :=
  ((Finset.range T).filter (fun t => ended (tr.ntStates n t) = false)).card

/-- Per-instance sampled start index (`start_indices` in `data.sample_game_data`). -/
def startIndex (dr : SampleDraws) (n : Nat) : Nat := dr.startDraw n

/-- Embedding of `end_indices = jnp.minimum(start_indices + unclamped_hypo_steps, game_len)`. -/
def endIndex {S : Type} (ended : S → Bool) (T : Nat) (tr : Trajectories S)
    (dr : SampleDraws) (n : Nat) : Nat :=
  min (startIndex dr n + dr.hypoDraw n) (gameLen ended T tr n)

/-- Embedding of `hypo_steps = jnp.minimum(unclamped_hypo_steps, end_indices - start_indices)`
(int32 arithmetic, hence over `Int`). -/
def hypoSteps {S : Type} (ended : S → Bool) (T : Nat) (tr : Trajectories S)
    (dr : SampleDraws) (n : Nat) : Int :=
  min (dr.hypoDraw n : Int)
    ((endIndex ended T tr dr n : Int) - (startIndex dr n : Int))

/-- Embedding of the `nk_actions` computation of `data.sample_game_data`
(lines 89-96): gather the fixed-width action window starting at
`start_indices` (clamped read), cast uint16 to int32 (value preserving), then
overwrite every slot at window position `>= hypo_steps` with the sentinel `-1`. -/
def nkActions {S : Type} (ended : S → Bool) (T : Nat) (tr : Trajectories S)
    (dr : SampleDraws) (n j : Nat) : Int :=
  if (j : Int) < hypoSteps ended T tr dr n then
    (tr.ntActions n (clampT T (startIndex dr n + j)) : Int)
  else
    -1

/-- Embedding of `start_states = trajectories.nt_states[batch_order_indices, start_indices]`. -/
def startState {S : Type} (T : Nat) (tr : Trajectories S) (dr : SampleDraws)
    (n : Nat) : S :=
  tr.ntStates n (clampT T (startIndex dr n))

/-- Embedding of `end_states = trajectories.nt_states[batch_order_indices, end_indices]`. -/
def endState {S : Type} (ended : S → Bool) (T : Nat) (tr : Trajectories S)
    (dr : SampleDraws) (n : Nat) : S :=
  tr.ntStates n (clampT T (endIndex ended T tr dr n))

/-- Embedding of `first_terminal_states = trajectories.nt_states[batch_order_indices, game_len]`. -/
def firstTerminalState {S : Type} (ended : S → Bool) (T : Nat)
    (tr : Trajectories S) (n : Nat) : S :=
  tr.ntStates n (clampT T (gameLen ended T tr n))

/-- Result record of `data.sample_game_data` (the `GameData` chex dataclass).
`A` is the abstract type of one player's area-ownership grid
(`gojax.compute_areas` output, first component player-to-move at scoring
convention of the code: black first, swapped by `get_turns`). -/
structure GameData (S A : Type) where
  startStates : Nat → S
  nkActions : Nat → Nat → Int
  endStates : Nat → S
  startPlayerFinalAreas : Nat → A × A
  endPlayerFinalAreas : Nat → A × A

/-- Embedding of the conditional channel swap
`jnp.where(get_turns(states), final_areas[:, [1, 0]], final_areas)`. -/
def playerFinalAreas {A : Type} (turn : Bool) (areas : A × A) : A × A :=
  if turn then (areas.2, areas.1) else areas

/-- Body of `data.sample_game_data` after the `max_hypo_steps` precondition
check: assembles the sampled `GameData`.  `computeAreas` and `getTurn` are
the external `gojax.compute_areas` / `gojax.get_turns` collaborators. -/
def sampleGameDataCore {S A : Type} (ended : S → Bool) (computeAreas : S → A × A)
    (getTurn : S → Bool) (T : Nat) (tr : Trajectories S) (dr : SampleDraws) :
    GameData S A :=
  { startStates := fun n => startState T tr dr n
    nkActions := fun n j => nkActions ended T tr dr n j
    endStates := fun n => endState ended T tr dr n
    startPlayerFinalAreas := fun n =>
      playerFinalAreas (getTurn (startState T tr dr n))
        (computeAreas (firstTerminalState ended T tr n))
    endPlayerFinalAreas := fun n =>
      playerFinalAreas (getTurn (endState ended T tr dr n))
        (computeAreas (firstTerminalState ended T tr n)) }

/-- Embedding of `data.sample_game_data` including its precondition:
`if max_hypo_steps < 1: raise ValueError(...)` happens before any sampling,
so the fallible function is an `Except` whose error branch is taken exactly
when `max_hypo_steps < 1` (with `max_hypo_steps : Int`, a Python int). -/
def sampleGameData {S A : Type} (ended : S → Bool) (computeAreas : S → A × A)
    (getTurn : S → Bool) (T : Nat) (maxHypoSteps : Int) (tr : Trajectories S)
    (dr : SampleDraws) : Except String (GameData S A) :=
  if maxHypoSteps < 1 then
    Except.error "max_hypo_steps must be at least 1."
  else
    Except.ok (sampleGameDataCore ended computeAreas getTurn T tr dr)

/-- Terminality is absorbing along a trajectory (spec §3 invariant 2: states
are frozen from the first terminal state on), propagated up the time axis. -/
theorem ended_chain {S : Type} (ended : S → Bool) (T : Nat)
    (tr : Trajectories S) (n : Nat)
    (hmono : ∀ t, t < T - 1 → ended (tr.ntStates n t) = true →
      ended (tr.ntStates n (t + 1)) = true) :
    ∀ u t, t ≤ u → u < T → ended (tr.ntStates n t) = true →
      ended (tr.ntStates n u) = true := by
  intro u
  induction u with
  | zero =>
    intro t ht _ hp
    have h0 : t = 0 := Nat.le_zero.mp ht
    rw [h0] at hp
    exact hp
  | succ v ih =>
    intro t ht hv hp
    rcases Nat.lt_succ_iff_lt_or_eq.mp (Nat.lt_succ_of_le ht) with hlt | heq
    · exact hmono v (by omega) (ih t (by omega) (by omega) hp)
    · rw [← heq]; exact hp

/-- Claim C1: every action slot of the sampled `GameData` at window position
at or beyond the effective horizon `min(k, end_index - start_index)` equals
the sentinel `-1`, and every slot strictly inside the effective horizon only
exposes a trajectory position strictly before `end_index`. -/
theorem sample_no_leak {S : Type} (ended : S → Bool) (T maxHypoSteps : Nat)
    (tr : Trajectories S) (dr : SampleDraws) (n j : Nat)
    (hmax : 1 ≤ maxHypoSteps) (hj : j < maxHypoSteps) :
    (hypoSteps ended T tr dr n ≤ (j : Int) →
      nkActions ended T tr dr n j = -1) ∧
    ((j : Int) < hypoSteps ended T tr dr n →
      startIndex dr n + j < endIndex ended T tr dr n) := by
  constructor
  · intro h
    unfold nkActions
    rw [if_neg (not_lt.mpr h)]
  · intro h
    have h2 : (j : Int) <
        (endIndex ended T tr dr n : Int) - (startIndex dr n : Int) :=
      lt_of_lt_of_le h (min_le_right _ _)
    omega

/-- Witness for `sample_no_leak` at a concrete batch: board states encoded as
`Bool` terminal flags, `T = 3`, ended pattern `[false, false, true]`,
`start = 0`, `k = 1`, window slot `j = 1`. -/
theorem sample_no_leak_witness :
    (1 ≤ 2 ∧ 1 < 2) ∧
    ((hypoSteps (fun s => s) 3
        ⟨fun _ t => decide (2 ≤ t), fun _ _ => 4⟩ ⟨fun _ => 0, fun _ => 1⟩ 0 ≤
        (1 : Int) →
      nkActions (fun s => s) 3
        ⟨fun _ t => decide (2 ≤ t), fun _ _ => 4⟩ ⟨fun _ => 0, fun _ => 1⟩ 0 1 = -1) ∧
    ((1 : Int) < hypoSteps (fun s => s) 3
        ⟨fun _ t => decide (2 ≤ t), fun _ _ => 4⟩ ⟨fun _ => 0, fun _ => 1⟩ 0 →
      startIndex ⟨fun _ => 0, fun _ => 1⟩ 0 + 1 <
        endIndex (fun s => s) 3
          ⟨fun _ t => decide (2 ≤ t), fun _ _ => 4⟩ ⟨fun _ => 0, fun _ => 1⟩ 0)) :=
  ⟨⟨by decide, by decide⟩,
    sample_no_leak (fun s => s) 3 2
      ⟨fun _ t => decide (2 ≤ t), fun _ _ => 4⟩ ⟨fun _ => 0, fun _ => 1⟩ 0 1
      (by decide) (by decide)⟩

/-- Claim C2: for a trajectory batch satisfying the data-model invariant that
terminality is absorbing, with a non-terminal initial state and the random
draws within their documented contracts (the categorical draw returns an
in-range non-terminal index, the randint draw is at least 1), the sampled
start index is strictly below the true game length and
`start_index ≤ end_index ≤ true_game_length`. -/
theorem sample_index_bounds {S : Type} (ended : S → Bool) (T : Nat)
    (tr : Trajectories S) (dr : SampleDraws) (n : Nat)
    (hmono : ∀ t, t < T - 1 → ended (tr.ntStates n t) = true →
      ended (tr.ntStates n (t + 1)) = true)
    (hinit : ended (tr.ntStates n 0) = false)
    (hstartlt : dr.startDraw n < T)
    (hstart : ended (tr.ntStates n (dr.startDraw n)) = false)
    (hk : 1 ≤ dr.hypoDraw n) :
    startIndex dr n < gameLen ended T tr n ∧
    startIndex dr n ≤ endIndex ended T tr dr n ∧
    endIndex ended T tr dr n ≤ gameLen ended T tr n := by
  have hlt : startIndex dr n < gameLen ended T tr n := by
    have hsub : Finset.range (dr.startDraw n + 1) ⊆
        (Finset.range T).filter (fun t => ended (tr.ntStates n t) = false) := by
      intro t ht
      simp only [Finset.mem_range] at ht
      simp only [Finset.mem_filter, Finset.mem_range]
      refine ⟨by omega, ?_⟩
      by_contra hne
      have htrue : ended (tr.ntStates n t) = true := by
        cases h : ended (tr.ntStates n t)
        · exact absurd h hne
        · rfl
      have := ended_chain ended T tr n hmono (dr.startDraw n) t
        (by omega) hstartlt htrue
      rw [this] at hstart
      exact Bool.true_eq_false.mp hstart
    have hcard := Finset.card_le_card hsub
    rw [Finset.card_range] at hcard
    unfold gameLen startIndex
    omega
  refine ⟨hlt, ?_, min_le_right _ _⟩
  exact le_min (Nat.le_add_right _ _) (le_of_lt hlt)

/-- Witness for `sample_index_bounds`: ended pattern `[false, false, true]`,
`start = 1`, `k = 2`. -/
theorem sample_index_bounds_witness :
    ((∀ t, t < 3 - 1 →
        (fun (s : Bool) => s) ((fun (_ t : Nat) => decide (2 ≤ t)) 0 t) = true →
        (fun (s : Bool) => s) ((fun (_ t : Nat) => decide (2 ≤ t)) 0 (t + 1)) = true) ∧
      decide (2 ≤ 0) = false ∧ 1 < 3 ∧ decide (2 ≤ 1) = false ∧ 1 ≤ 2) ∧
    (startIndex ⟨fun _ => 1, fun _ => 2⟩ 0 <
      gameLen (fun s => s) 3 ⟨fun _ t => decide (2 ≤ t), fun _ _ => 4⟩ 0 ∧
    startIndex ⟨fun _ => 1, fun _ => 2⟩ 0 ≤
      endIndex (fun s => s) 3 ⟨fun _ t => decide (2 ≤ t), fun _ _ => 4⟩
        ⟨fun _ => 1, fun _ => 2⟩ 0 ∧
    endIndex (fun s => s) 3 ⟨fun _ t => decide (2 ≤ t), fun _ _ => 4⟩
        ⟨fun _ => 1, fun _ => 2⟩ 0 ≤
      gameLen (fun s => s) 3 ⟨fun _ t => decide (2 ≤ t), fun _ _ => 4⟩ 0) :=
  ⟨⟨by decide, by decide, by decide, by decide, by decide⟩,
    sample_index_bounds (fun s => s) 3
      ⟨fun _ t => decide (2 ≤ t), fun _ _ => 4⟩ ⟨fun _ => 1, fun _ => 2⟩ 0
      (by decide) (by decide) (by decide) (by decide) (by decide)⟩

/-- Claim C8: `sample_game_data` fails (with the `ValueError` raised before
any sampling work) exactly when `max_hypo_steps < 1`; for `max_hypo_steps ≥ 1`
it always succeeds, and an overshoot of `start + k` past the game length is
silently clamped by `end_index = min(start + k, game_len)`, not an error. -/
theorem sample_precondition {S A : Type} (ended : S → Bool)
    (computeAreas : S → A × A) (getTurn : S → Bool) (T : Nat)
    (maxHypoSteps : Int) (tr : Trajectories S) (dr : SampleDraws) (n : Nat) :
    (maxHypoSteps < 1 →
      sampleGameData ended computeAreas getTurn T maxHypoSteps tr dr =
        Except.error "max_hypo_steps must be at least 1.") ∧
    (1 ≤ maxHypoSteps →
      sampleGameData ended computeAreas getTurn T maxHypoSteps tr dr =
        Except.ok (sampleGameDataCore ended computeAreas getTurn T tr dr) ∧
      (gameLen ended T tr n ≤ startIndex dr n + dr.hypoDraw n →
        endIndex ended T tr dr n = gameLen ended T tr n)) := by
  refine ⟨fun h => ?_, fun h => ⟨?_, fun hover => ?_⟩⟩
  · unfold sampleGameData
    rw [if_pos h]
  · unfold sampleGameData
    rw [if_neg (not_lt.mpr h)]
  · unfold endIndex
    omega

/-- Witness for `sample_precondition`: the error branch at
`max_hypo_steps = 0` and the success branch with clamping at
`max_hypo_steps = 5`, `start = 1`, `k = 5`, game length `2`. -/
theorem sample_precondition_witness :
    ((0 : Int) < 1 ∧ (1 : Int) ≤ 5) ∧
    sampleGameData (S := Bool) (A := Unit) (fun s => s) (fun _ => ((), ()))
        (fun _ => false) 3 0 ⟨fun _ t => decide (2 ≤ t), fun _ _ => 4⟩
        ⟨fun _ => 1, fun _ => 5⟩ =
      Except.error "max_hypo_steps must be at least 1." ∧
    sampleGameData (S := Bool) (A := Unit) (fun s => s) (fun _ => ((), ()))
        (fun _ => false) 3 5 ⟨fun _ t => decide (2 ≤ t), fun _ _ => 4⟩
        ⟨fun _ => 1, fun _ => 5⟩ =
      Except.ok (sampleGameDataCore (fun s => s) (fun _ => ((), ()))
        (fun _ => false) 3 ⟨fun _ t => decide (2 ≤ t), fun _ _ => 4⟩
        ⟨fun _ => 1, fun _ => 5⟩) ∧
    endIndex (fun s => s) 3 ⟨fun _ t => decide (2 ≤ t), fun _ _ => 4⟩
        ⟨fun _ => 1, fun _ => 5⟩ 0 =
      gameLen (fun s => s) 3 ⟨fun _ t => decide (2 ≤ t), fun _ _ => 4⟩ 0 :=
  ⟨⟨by decide, by decide⟩,
    (sample_precondition (fun s => s) (fun _ => ((), ())) (fun _ => false) 3 0
        ⟨fun _ t => decide (2 ≤ t), fun _ _ => 4⟩ ⟨fun _ => 1, fun _ => 5⟩ 0).1
      (by decide),
    ((sample_precondition (fun s => s) (fun _ => ((), ())) (fun _ => false) 3 5
        ⟨fun _ t => decide (2 ≤ t), fun _ _ => 4⟩ ⟨fun _ => 1, fun _ => 5⟩ 0).2
      (by decide)).1,
    ((sample_precondition (fun s => s) (fun _ => ((), ())) (fun _ => false) 3 5
        ⟨fun _ t => decide (2 ≤ t), fun _ _ => 4⟩ ⟨fun _ => 1, fun _ => 5⟩ 0).2
      (by decide)).2 (by decide)⟩

/-- Claim C9: when a game has not ended within the recorded trajectory
(`game_len = T`), the scoring read `nt_states[n, game_len]` and the end-state
read at `end_index = T` are one past the last valid time index, and JAX's
total clamped gather makes both return the state at index `T - 1` rather
than fail. -/
theorem unfinished_game_clamped_reads {S : Type} (ended : S → Bool) (T : Nat)
    (tr : Trajectories S) (dr : SampleDraws) (n : Nat)
    (hT : 1 ≤ T) (hlen : gameLen ended T tr n = T) :
    firstTerminalState ended T tr n = tr.ntStates n (T - 1) ∧
    (endIndex ended T tr dr n = T →
      endState ended T tr dr n = tr.ntStates n (T - 1)) := by
  constructor
  · unfold firstTerminalState clampT
    rw [hlen]
    congr 1
    omega
  · intro he
    unfold endState clampT
    rw [he]
    congr 1
    omega

/-- Witness for `unfinished_game_clamped_reads`: a 2-step trajectory that
never ends, sampled with `start = 1`, `k = 1`, so that both the scoring read
and the end read are at index `T = 2` and return the state at index `1`. -/
theorem unfinished_game_clamped_reads_witness :
    (1 ≤ 2 ∧
      gameLen (fun (_ : Nat) => false) 2 ⟨fun _ t => t, fun _ _ => 4⟩ 0 = 2) ∧
    firstTerminalState (fun (_ : Nat) => false) 2
        ⟨fun _ t => t, fun _ _ => 4⟩ 0 =
      (fun (_ t : Nat) => t) 0 (2 - 1) ∧
    (endIndex (fun (_ : Nat) => false) 2 ⟨fun _ t => t, fun _ _ => 4⟩
        ⟨fun _ => 1, fun _ => 1⟩ 0 = 2 →
      endState (fun (_ : Nat) => false) 2 ⟨fun _ t => t, fun _ _ => 4⟩
          ⟨fun _ => 1, fun _ => 1⟩ 0 = (fun (_ t : Nat) => t) 0 (2 - 1)) :=
  ⟨⟨by decide, by decide⟩,
    (unfinished_game_clamped_reads (fun (_ : Nat) => false) 2
        ⟨fun _ t => t, fun _ _ => 4⟩ ⟨fun _ => 1, fun _ => 1⟩ 0
        (by decide) (by decide)).1,
    (unfinished_game_clamped_reads (fun (_ : Nat) => false) 2
        ⟨fun _ t => t, fun _ _ => 4⟩ ⟨fun _ => 1, fun _ => 1⟩ 0
        (by decide) (by decide)).2⟩

/-- Claim C10: freshly allocated action slots hold the uint16 sentinel
`65535 = (-1) mod 2^16`; after the int32 cast of the gathered window a slot
equals the signed `-1` exactly where the effective-horizon mask overwrote it,
and a stored uint16 sentinel read inside the window surfaces as `65535`,
never as `-1`. -/
theorem uint16_sentinel_representation {S : Type} (s0 : S) (ended : S → Bool)
    (T : Nat) (tr : Trajectories S) (dr : SampleDraws) (n t j : Nat) :
    (newTrajectories s0).ntActions n t = 65535 ∧
    uint16OfInt (-1) = 65535 ∧
    ((-1 : Int) % 2 ^ 16 = 65535) ∧
    (nkActions ended T tr dr n j = -1 ↔
      hypoSteps ended T tr dr n ≤ (j : Int)) ∧
    ((j : Int) < hypoSteps ended T tr dr n →
      tr.ntActions n (clampT T (startIndex dr n + j)) = 65535 →
      nkActions ended T tr dr n j = 65535) := by
  refine ⟨by rfl, by decide, by decide, ?_, ?_⟩
  · unfold nkActions
    by_cases hc : (j : Int) < hypoSteps ended T tr dr n
    · rw [if_pos hc]
      have h0 : (0 : Int) ≤
          (tr.ntActions n (clampT T (startIndex dr n + j)) : Int) :=
        Int.natCast_nonneg _
      constructor
      · intro h
        omega
      · intro h
        omega
    · rw [if_neg hc]
      exact ⟨fun _ => not_lt.mp hc, fun _ => rfl⟩
  · intro hin hsent
    unfold nkActions
    rw [if_pos hin, hsent]
    rfl

/-- Witness for `uint16_sentinel_representation`: a window whose gathered
slot really holds the stored uint16 sentinel (`T = 3`, actions all `65535`,
`start = 0`, `k = 2`, slot `j = 1`). -/
theorem uint16_sentinel_representation_witness :
    ((1 : Int) < hypoSteps (fun s => s) 3
        ⟨fun _ t => decide (2 ≤ t), fun _ _ => 65535⟩ ⟨fun _ => 0, fun _ => 2⟩ 0 ∧
      (65535 : Nat) = 65535) ∧
    (newTrajectories (S := Bool) false).ntActions 0 0 = 65535 ∧
    (nkActions (fun s => s) 3 ⟨fun _ t => decide (2 ≤ t), fun _ _ => 65535⟩
        ⟨fun _ => 0, fun _ => 2⟩ 0 1 = -1 ↔
      hypoSteps (fun s => s) 3 ⟨fun _ t => decide (2 ≤ t), fun _ _ => 65535⟩
        ⟨fun _ => 0, fun _ => 2⟩ 0 ≤ (1 : Int)) ∧
    nkActions (fun s => s) 3 ⟨fun _ t => decide (2 ≤ t), fun _ _ => 65535⟩
        ⟨fun _ => 0, fun _ => 2⟩ 0 1 = 65535 :=
  ⟨⟨by decide, by decide⟩,
    (uint16_sentinel_representation (S := Bool) false (fun s => s) 3
        ⟨fun _ t => decide (2 ≤ t), fun _ _ => 65535⟩
        ⟨fun _ => 0, fun _ => 2⟩ 0 0 1).1,
    (uint16_sentinel_representation (S := Bool) false (fun s => s) 3
        ⟨fun _ t => decide (2 ≤ t), fun _ _ => 65535⟩
        ⟨fun _ => 0, fun _ => 2⟩ 0 0 1).2.2.2.1,
    (uint16_sentinel_representation (S := Bool) false (fun s => s) 3
        ⟨fun _ t => decide (2 ≤ t), fun _ _ => 65535⟩
        ⟨fun _ => 0, fun _ => 2⟩ 0 0 1).2.2.2.2 (by decide) (by decide)⟩

/-- Embedding of `jax.lax.fori_loop(0, k, body, init)`: applies the body at
indices `0, 1, ..., k-1` in order. -/
def foriLoop {α : Type} (body : Nat → α → α) : Nat → α → α
  | 0, a => a
  | k + 1, a => body k (foriLoop body k a)

/-- Embedding of `game.update_trajectories`: records the policy's sampled
action (the categorical draw, abstracted as `sampleAction step n`) at action
column `step` and the rules-engine successor (`gojax.next_states`, abstracted
as `nextStates`) at state column `step + 1`, for every batch instance. -/
def updateTrajectories {S : Type} (nextStates : S → Nat → S)
    (sampleAction : Nat → Nat → Nat) (step : Nat) (tr : Trajectories S) :
    Trajectories S :=
  { ntActions := fun n t =>
      if t = step then sampleAction step n else tr.ntActions n t
    ntStates := fun n t =>
      if t = step + 1 then
        nextStates (tr.ntStates n step) (sampleAction step n)
      else tr.ntStates n t }

/-- Embedding of `game.self_play`: `fori_loop` of `update_trajectories` over
steps `0 .. T-2`. -/
def selfPlay {S : Type} (nextStates : S → Nat → S)
    (sampleAction : Nat → Nat → Nat) (T : Nat) (tr : Trajectories S) :
    Trajectories S :=
  foriLoop (updateTrajectories nextStates sampleAction) (T - 1) tr

theorem selfPlay_states_unchanged {S : Type} (nextStates : S → Nat → S)
    (sampleAction : Nat → Nat → Nat) (tr : Trajectories S) :
    ∀ k n t, t = 0 ∨ k < t →
      (foriLoop (updateTrajectories nextStates sampleAction) k tr).ntStates n t =
        tr.ntStates n t := by
  intro k
  induction k with
  | zero => intro n t _; rfl
  | succ m ih =>
    intro n t ht
    show (updateTrajectories nextStates sampleAction m _).ntStates n t = _
    unfold updateTrajectories
    simp only
    rw [if_neg (by omega)]
    exact ih n t (by omega)

theorem selfPlay_states_stable {S : Type} (nextStates : S → Nat → S)
    (sampleAction : Nat → Nat → Nat) (tr : Trajectories S) :
    ∀ m k n t, k ≤ m → t ≤ k →
      (foriLoop (updateTrajectories nextStates sampleAction) m tr).ntStates n t =
        (foriLoop (updateTrajectories nextStates sampleAction) k tr).ntStates n t := by
  intro m
  induction m with
  | zero => intro k n t hk _; interval_cases k; rfl
  | succ m ih =>
    intro k n t hk ht
    rcases Nat.lt_succ_iff_lt_or_eq.mp (Nat.lt_succ_of_le hk) with hlt | heq
    · show (updateTrajectories nextStates sampleAction m _).ntStates n t = _
      unfold updateTrajectories
      simp only
      rw [if_neg (by omega)]
      exact ih k n t (by omega) ht
    · rw [heq]

theorem selfPlay_states_rec {S : Type} (nextStates : S → Nat → S)
    (sampleAction : Nat → Nat → Nat) (T : Nat) (tr : Trajectories S)
    (n u : Nat) (hu : u + 1 ≤ T - 1) :
    (selfPlay nextStates sampleAction T tr).ntStates n (u + 1) =
      nextStates ((selfPlay nextStates sampleAction T tr).ntStates n u)
        (sampleAction u n) := by
  unfold selfPlay
  rw [selfPlay_states_stable nextStates sampleAction tr (T - 1) (u + 1) n (u + 1)
    hu le_rfl]
  rw [selfPlay_states_stable nextStates sampleAction tr (T - 1) u n u
    (by omega) le_rfl]
  show (updateTrajectories nextStates sampleAction u _).ntStates n (u + 1) = _
  unfold updateTrajectories
  simp

theorem selfPlay_acts_unchanged {S : Type} (nextStates : S → Nat → S)
    (sampleAction : Nat → Nat → Nat) (tr : Trajectories S) :
    ∀ k n t, k ≤ t →
      (foriLoop (updateTrajectories nextStates sampleAction) k tr).ntActions n t =
        tr.ntActions n t := by
  intro k
  induction k with
  | zero => intro n t _; rfl
  | succ m ih =>
    intro n t ht
    show (updateTrajectories nextStates sampleAction m _).ntActions n t = _
    unfold updateTrajectories
    simp only
    rw [if_neg (by omega)]
    exact ih n t (by omega)

theorem selfPlay_acts_written {S : Type} (nextStates : S → Nat → S)
    (sampleAction : Nat → Nat → Nat) (tr : Trajectories S) :
    ∀ k n t, t < k →
      (foriLoop (updateTrajectories nextStates sampleAction) k tr).ntActions n t =
        sampleAction t n := by
  intro k
  induction k with
  | zero => intro n t ht; omega
  | succ m ih =>
    intro n t ht
    show (updateTrajectories nextStates sampleAction m _).ntActions n t = _
    unfold updateTrajectories
    simp only
    by_cases hc : t = m
    · rw [if_pos hc, hc]
    · rw [if_neg hc]
      exact ih n t (by omega)

/-- Claim C4 (amended): in a `self_play` batch, once `state[t]` is terminal
all later recorded states are frozen, provided the external rules engine's
transition is idempotent on terminal states; but the recorded actions of a
terminal instance are NOT the sentinel: every action column `u < T-1` holds
the policy's sampled action for step `u` (even where the state is already
terminal), and only the last column `T-1`, which the loop never writes,
keeps its initial sentinel value. -/
theorem self_play_terminal_behavior {S : Type} (nextStates : S → Nat → S)
    (isTerminal : S → Bool) (sampleAction : Nat → Nat → Nat) (T : Nat)
    (tr : Trajectories S) (n t u : Nat)
    (hidem : ∀ s a, isTerminal s = true → nextStates s a = s)
    (hterm : isTerminal
      ((selfPlay nextStates sampleAction T tr).ntStates n t) = true)
    (htu : t ≤ u) (huT : u ≤ T - 1) :
    (selfPlay nextStates sampleAction T tr).ntStates n u =
      (selfPlay nextStates sampleAction T tr).ntStates n t ∧
    (u < T - 1 →
      (selfPlay nextStates sampleAction T tr).ntActions n u = sampleAction u n) ∧
    (selfPlay nextStates sampleAction T tr).ntActions n (T - 1) =
      tr.ntActions n (T - 1) := by
  refine ⟨?_, fun hu => ?_, ?_⟩
  · induction u, htu using Nat.le_induction with
    | base => rfl
    | succ v hv ih =>
      have hfrozen := ih (by omega)
      rw [selfPlay_states_rec nextStates sampleAction T tr n v huT, hfrozen,
        hidem _ _ hterm]
  · exact selfPlay_acts_written nextStates sampleAction tr (T - 1) n u hu
  · exact selfPlay_acts_unchanged nextStates sampleAction tr (T - 1) n (T - 1)
      le_rfl

/-- Witness for `self_play_terminal_behavior`: a move-counting engine that is
terminal from count 2 on and idempotent there, `T = 4`, checked at `t = 2`,
`u = 3`. -/
theorem self_play_terminal_behavior_witness :
    ((∀ (s a : Nat), decide (2 ≤ s) = true →
        (if 2 ≤ s then s else s + 1) = s) ∧
      decide (2 ≤ (selfPlay (fun s (_ : Nat) => if 2 ≤ s then s else s + 1)
        (fun _ _ => 7) 4 (newTrajectories 0)).ntStates 0 2) = true ∧
      2 ≤ 3 ∧ 3 ≤ 4 - 1) ∧
    ((selfPlay (fun s (_ : Nat) => if 2 ≤ s then s else s + 1) (fun _ _ => 7) 4
        (newTrajectories 0)).ntStates 0 3 =
      (selfPlay (fun s (_ : Nat) => if 2 ≤ s then s else s + 1) (fun _ _ => 7) 4
        (newTrajectories 0)).ntStates 0 2 ∧
    (3 < 4 - 1 →
      (selfPlay (fun s (_ : Nat) => if 2 ≤ s then s else s + 1) (fun _ _ => 7) 4
          (newTrajectories 0)).ntActions 0 3 = 7) ∧
    (selfPlay (fun s (_ : Nat) => if 2 ≤ s then s else s + 1) (fun _ _ => 7) 4
        (newTrajectories 0)).ntActions 0 (4 - 1) =
      (newTrajectories (S := Nat) 0).ntActions 0 (4 - 1)) :=
  ⟨⟨fun s a h => if_pos (by simpa using h), by decide, by decide, by decide⟩,
    self_play_terminal_behavior (fun s (_ : Nat) => if 2 ≤ s then s else s + 1)
      (fun s => decide (2 ≤ s)) (fun _ _ => 7) 4 (newTrajectories 0) 0 2 3
      (fun s a h => if_pos (by simpa using h)) (by decide) (by decide)
      (by decide)⟩

/-- Counterexample to claim C4 as stated: with the rules engine that counts
moves, is terminal from count 2 on and idempotent there, and a policy that
always samples action 7, `self_play` over `T = 4` reaches a terminal state at
step 2 yet records action 7 there — not the sentinel `-1` (uint16 `65535`)
the claim requires. -/
theorem self_play_terminal_action_counterexample :
    decide (2 ≤ (selfPlay (fun s (_ : Nat) => if 2 ≤ s then s else s + 1)
      (fun _ _ => 7) 4 (newTrajectories 0)).ntStates 0 2) = true ∧
    (selfPlay (fun s (_ : Nat) => if 2 ≤ s then s else s + 1) (fun _ _ => 7) 4
      (newTrajectories 0)).ntActions 0 2 = 7 ∧
    (7 : Nat) ≠ uint16OfInt (-1) ∧ (7 : Int) ≠ -1 := by
  refine ⟨by decide, by decide, by decide, by decide⟩

/-- Modelled from the spec (§4.3) and the `game.get_winners` docstring: the
external `gojax.compute_winning` returns 1 when black (the first mover) won,
0 on a tie and -1 when white won, i.e. the sign of the area difference at the
scored state; the two area counts are abstract rules-engine outputs. -/
def computeWinning {S : Type} (blackArea whiteArea : S → Int) (s : S) : Int :=
  Int.sign (blackArea s - whiteArea s)

/-- Embedding of `game.get_winners`: scores the last recorded state
`nt_states[:, -1]` of each trajectory. -/
def getWinners {S : Type} (blackArea whiteArea : S → Int) (T : Nat)
    (tr : Trajectories S) (n : Nat) : Int :=
  computeWinning blackArea whiteArea (tr.ntStates n (T - 1))

/-- Embedding of `white_perspective_negation = ones.at[:, 1::2].set(-1)` in
`game.get_labels`: -1 at odd time columns, 1 elsewhere. -/
def whitePerspectiveNegation (t : Nat) : Int := if t % 2 = 1 then -1 else 1

/-- Embedding of `game.get_labels`: the per-step outcome label is the
alternating perspective sign times the trajectory winner. -/
def getLabels {S : Type} (blackArea whiteArea : S → Int) (T : Nat)
    (tr : Trajectories S) (n t : Nat) : Int :=
  whitePerspectiveNegation t * getWinners blackArea whiteArea T tr n

/-- Claim C5: the outcome label at step 0 is the sign of the area difference
at the trajectory's final recorded state (the terminal state, by the freeze
invariant) from the first mover's perspective; at even steps the label is the
winner, at odd steps its negation, and consecutive labels always alternate in
sign, independent of whether the game has ended by that step. -/
theorem outcome_label_parity {S : Type} (blackArea whiteArea : S → Int)
    (T : Nat) (tr : Trajectories S) (n t : Nat) (ht : t < T) :
    getLabels blackArea whiteArea T tr n 0 =
      Int.sign (blackArea (tr.ntStates n (T - 1)) -
        whiteArea (tr.ntStates n (T - 1))) ∧
    (t % 2 = 0 →
      getLabels blackArea whiteArea T tr n t =
        getWinners blackArea whiteArea T tr n) ∧
    (t % 2 = 1 →
      getLabels blackArea whiteArea T tr n t =
        -getWinners blackArea whiteArea T tr n) ∧
    getLabels blackArea whiteArea T tr n (t + 1) =
      -getLabels blackArea whiteArea T tr n t := by
  unfold getLabels getWinners computeWinning whitePerspectiveNegation
  refine ⟨by norm_num, fun h => ?_, fun h => ?_, ?_⟩
  · rw [if_neg (by omega)]
    ring
  · rw [if_pos h]
    ring
  · by_cases hp : t % 2 = 1
    · rw [if_pos hp, if_neg (by omega)]
      ring
    · rw [if_neg hp, if_pos (by omega)]
      ring

/-- Witness for `outcome_label_parity`: a single-state type with black area 3
and white area 1, `T = 3`, checked at `t = 1`. -/
theorem outcome_label_parity_witness :
    (1 < 3) ∧
    (getLabels (S := Unit) (fun _ => 3) (fun _ => 1) 3
        ⟨fun _ _ => (), fun _ _ => 4⟩ 0 0 =
      Int.sign ((fun (_ : Unit) => (3 : Int)) () - (fun (_ : Unit) => (1 : Int)) ()) ∧
    (1 % 2 = 0 →
      getLabels (S := Unit) (fun _ => 3) (fun _ => 1) 3
          ⟨fun _ _ => (), fun _ _ => 4⟩ 0 1 =
        getWinners (fun _ => 3) (fun _ => 1) 3 ⟨fun _ _ => (), fun _ _ => 4⟩ 0) ∧
    (1 % 2 = 1 →
      getLabels (S := Unit) (fun _ => 3) (fun _ => 1) 3
          ⟨fun _ _ => (), fun _ _ => 4⟩ 0 1 =
        -getWinners (fun _ => 3) (fun _ => 1) 3 ⟨fun _ _ => (), fun _ _ => 4⟩ 0) ∧
    getLabels (S := Unit) (fun _ => 3) (fun _ => 1) 3
        ⟨fun _ _ => (), fun _ _ => 4⟩ 0 2 =
      -getLabels (S := Unit) (fun _ => 3) (fun _ => 1) 3
        ⟨fun _ _ => (), fun _ _ => 4⟩ 0 1) :=
  ⟨by decide,
    outcome_label_parity (S := Unit) (fun _ => 3) (fun _ => 1) 3
      ⟨fun _ _ => (), fun _ _ => 4⟩ 0 1 (by decide)⟩

/-- Embedding of one counter-clockwise quarter turn of a `B x B` grid,
`np.rot90`: the rotated grid at `(i, j)` reads the original at `(j, B-1-i)`. -/
def rot90 (B : Nat) (g : Nat → Nat → Bool) : Nat → Nat → Bool :=
  fun i j => g j (B - 1 - i)

/-- Embedding of `jnp.rot90(..., k=k)`: `k` quarter turns. -/
def rotK (B : Nat) : Nat → (Nat → Nat → Bool) → Nat → Nat → Bool
  | 0, g => g
  | k + 1, g => rot90 B (rotK B k g)

/-- Modelled from the spec (§3 Action): `gojax.action_1d_to_indicator` —
an integer action `a < B*B` becomes the one-hot spatial grid with a single
set cell at `(a / B, a % B)`; the pass action `B*B` (and any out-of-range
index, the uint16 sentinel included) becomes the all-zero grid. -/
def actionIndicator (B a : Nat) : Nat → Nat → Bool :=
  fun i j => decide (a < B * B ∧ i = a / B ∧ j = a % B)

/-- Modelled from the spec (§3 Action): `gojax.action_indicator_to_1d` —
the flat index of the set cell of the indicator grid, or the pass index
`B*B` when no cell is set. -/
def actionFromIndicator (B : Nat) (g : Nat → Nat → Bool) : Nat :=
  (((List.range (B * B)).find? fun p => g (p / B) (p % B)).getD (B * B))

/-- Embedding of one iteration of the rotation loop in
`game.rotationally_augment_trajectories`: the slice `[i*gs, (i+1)*gs)` of the
batch is replaced by its `i`-quarter-turn rotation; and since the loop breaks
at the first `i >= N` and `i` only increases, the break is the same as
skipping every iteration with `i >= N`. -/
def sliceRotate {α : Type} (N gs : Nat) (rot : Nat → α → α) (i : Nat)
    (f : Nat → α) : Nat → α :=
  fun n =>
    if i < N ∧ i * gs ≤ n ∧ n < (i + 1) * gs then rot i (f n) else f n

/-- Embedding of `game.rotationally_augment_trajectories`: states are grids
indexed by channel, row, column; actions are converted to indicator grids,
the slices for `i = 1, 2, 3` are rotated by `i` quarter turns (group size
`max(N/4, 1)`), and the indicator grids are converted back to integers. -/
def rotationallyAugment (B N : Nat)
    (tr : Trajectories (Nat → Nat → Nat → Bool)) :
    Trajectories (Nat → Nat → Nat → Bool) :=
  let gs := max (N / 4) 1
  let stRot : Nat → (Nat → Nat → Nat → Nat → Bool) → Nat → Nat → Nat → Nat → Bool :=
    fun i x => fun t c => rotK B i (x t c)
  let acRot : Nat → (Nat → Nat → Nat → Bool) → Nat → Nat → Nat → Bool :=
    fun i x => fun t => rotK B i (x t)
  let states0 : Nat → Nat → Nat → Nat → Nat → Bool :=
    fun n => fun t c => tr.ntStates n t c
  let indic0 : Nat → Nat → Nat → Nat → Bool :=
    fun n => fun t => actionIndicator B (tr.ntActions n t)
  let states3 :=
    sliceRotate N gs stRot 3
      (sliceRotate N gs stRot 2 (sliceRotate N gs stRot 1 states0))
  let indic3 :=
    sliceRotate N gs acRot 3
      (sliceRotate N gs acRot 2 (sliceRotate N gs acRot 1 indic0))
  { ntStates := fun n t c => states3 n t c
    ntActions := fun n t => actionFromIndicator B (indic3 n t) }

/-- Rotation class actually applied to batch instance `n` by the slicing
loop: `n / gs` on the three rotated slices, 0 elsewhere (group 0 and the
remainder `n >= 4*gs` included). -/
def rotClass (N n : Nat) : Nat :=
  if max (N / 4) 1 ≤ n ∧ n < 2 * max (N / 4) 1 then 1
  else if 2 * max (N / 4) 1 ≤ n ∧ n < 3 * max (N / 4) 1 then 2
  else if 3 * max (N / 4) 1 ≤ n ∧ n < 4 * max (N / 4) 1 then 3
  else 0

theorem sliceRotate_chain {α : Type} (N gs : Nat) (rot : Nat → α → α)
    (f : Nat → α) (n : Nat) (hn : n < N) (hgs : 1 ≤ gs) :
    sliceRotate N gs rot 3
      (sliceRotate N gs rot 2 (sliceRotate N gs rot 1 f)) n =
      (if gs ≤ n ∧ n < 2 * gs then rot 1 (f n)
       else if 2 * gs ≤ n ∧ n < 3 * gs then rot 2 (f n)
       else if 3 * gs ≤ n ∧ n < 4 * gs then rot 3 (f n)
       else f n) := by
  unfold sliceRotate
  split_ifs <;> first | rfl | omega

theorem rotAug_states_char (B N : Nat) (tr : Trajectories (Nat → Nat → Nat → Bool))
    (n t c i j : Nat) (hn : n < N) :
    (rotationallyAugment B N tr).ntStates n t c i j =
      rotK B (rotClass N n) (tr.ntStates n t c) i j := by
  have hgs : 1 ≤ max (N / 4) 1 := le_max_right _ _
  simp only [rotationallyAugment]
  rw [sliceRotate_chain N (max (N / 4) 1) _ _ n hn hgs]
  unfold rotClass
  split_ifs <;> rfl

theorem rotAug_acts_char (B N : Nat) (tr : Trajectories (Nat → Nat → Nat → Bool))
    (n t : Nat) (hn : n < N) :
    (rotationallyAugment B N tr).ntActions n t =
      actionFromIndicator B
        (rotK B (rotClass N n) (actionIndicator B (tr.ntActions n t))) := by
  have hgs : 1 ≤ max (N / 4) 1 := le_max_right _ _
  simp only [rotationallyAugment]
  rw [sliceRotate_chain N (max (N / 4) 1) _ _ n hn hgs]
  unfold rotClass
  split_ifs <;> rfl

/-- Claim C6 (amended): `rotationally_augment` rotates exactly the three
contiguous slices `[i*gs, (i+1)*gs)` for `i = 1, 2, 3` with
`gs = max(⌊N/4⌋, 1)` by `i` quarter turns (states channel-wise, actions via
the indicator round-trip), and every other instance — group 0 AND the
remainder `n ≥ 4*gs` — is left unrotated: the last group does NOT absorb the
remainder.  For `N < 4` the slices beyond the batch are empty, so those
rotation classes are simply skipped. -/
theorem rotationally_augment_groups (B N : Nat)
    (tr : Trajectories (Nat → Nat → Nat → Bool)) (n t c i j : Nat)
    (hn : n < N) :
    (rotationallyAugment B N tr).ntStates n t c i j =
      rotK B (rotClass N n) (tr.ntStates n t c) i j ∧
    (rotationallyAugment B N tr).ntActions n t =
      actionFromIndicator B
        (rotK B (rotClass N n) (actionIndicator B (tr.ntActions n t))) :=
  ⟨rotAug_states_char B N tr n t c i j hn, rotAug_acts_char B N tr n t hn⟩

/-- Witness for `rotationally_augment_groups`: `B = 3`, `N = 5`, instance 4
(the remainder, rotation class 0) with a stone at the origin. -/
theorem rotationally_augment_groups_witness :
    (4 < 5) ∧
    ((rotationallyAugment 3 5
        ⟨fun n _ _ i j => decide (n = 4 ∧ i = 0 ∧ j = 0), fun _ _ => 9⟩).ntStates
        4 0 0 0 0 =
      rotK 3 (rotClass 5 4)
        ((fun (n _ _ i j : Nat) => decide (n = 4 ∧ i = 0 ∧ j = 0)) 4 0 0) 0 0 ∧
    (rotationallyAugment 3 5
        ⟨fun n _ _ i j => decide (n = 4 ∧ i = 0 ∧ j = 0), fun _ _ => 9⟩).ntActions
        4 0 =
      actionFromIndicator 3 (rotK 3 (rotClass 5 4) (actionIndicator 3 9))) :=
  ⟨by decide,
    rotationally_augment_groups 3 5
      ⟨fun n _ _ i j => decide (n = 4 ∧ i = 0 ∧ j = 0), fun _ _ => 9⟩ 4 0 0 0 0
      (by decide)⟩

/-- Counterexample to claim C6 as stated: with `N = 5` (`gs = 1`) the claim
makes the last group `{3, 4}` (absorbing the remainder) and so predicts that
instance 4 is rotated by 3 quarter turns; but the code's slice `[3, 4)` stops
before instance 4, which is returned unrotated: the stone at the origin stays
at the origin, while its 3-quarter-turn image would not be there. -/
theorem rotationally_augment_remainder_counterexample :
    (rotationallyAugment 3 5
        ⟨fun n _ _ i j => decide (n = 4 ∧ i = 0 ∧ j = 0), fun _ _ => 9⟩).ntStates
        4 0 0 0 0 = true ∧
    rotK 3 3 (fun i j => decide (i = 0 ∧ j = 0)) 0 0 = false := by
  refine ⟨by decide, by decide⟩

theorem rotK_false_box (B : Nat) (g : Nat → Nat → Bool)
    (hg : ∀ i j, i < B → j < B → g i j = false) :
    ∀ k i j, i < B → j < B → rotK B k g i j = false := by
  intro k
  induction k with
  | zero => intro i j hi hj; exact hg i j hi hj
  | succ m ih =>
    intro i j hi hj
    show rot90 B (rotK B m g) i j = false
    unfold rot90
    exact ih j (B - 1 - i) hj (by omega)

theorem rotK_false_all (B : Nat) (g : Nat → Nat → Bool)
    (hg : ∀ i j, g i j = false) : ∀ k i j, rotK B k g i j = false := by
  intro k
  induction k with
  | zero => intro i j; exact hg i j
  | succ m ih =>
    intro i j
    show rot90 B (rotK B m g) i j = false
    unfold rot90
    exact ih j (B - 1 - i)

theorem actionFromIndicator_false (B : Nat) (g : Nat → Nat → Bool)
    (hg : ∀ i j, g i j = false) : actionFromIndicator B g = B * B := by
  unfold actionFromIndicator
  have h : (List.range (B * B)).find? (fun p => g (p / B) (p % B)) = none := by
    rw [List.find?_eq_none]
    intro x hx
    simp [hg]
  rw [h]
  rfl

/-- Claim C7 (amended): on a trajectory batch whose boards are all empty the
state tensor is returned unchanged (an empty grid is invariant under every
rotation); the action tensor, however, is only guaranteed unchanged when
every action is the pass index `B*B` — non-pass actions in rotated groups
are moved to their rotated cells, and sentinel slots collapse to the pass
index, so the full trajectory is in general not identical. -/
theorem rotationally_augment_empty_board (B N C T : Nat)
    (tr : Trajectories (Nat → Nat → Nat → Bool)) (n t c i j : Nat)
    (hempty : ∀ n', n' < N → ∀ t', t' < T → ∀ c', c' < C → ∀ i', i' < B →
      ∀ j', j' < B → tr.ntStates n' t' c' i' j' = false)
    (hn : n < N) (ht : t < T) (hc : c < C) (hi : i < B) (hj : j < B) :
    (rotationallyAugment B N tr).ntStates n t c i j = tr.ntStates n t c i j ∧
    ((∀ n', n' < N → ∀ t', t' < T → tr.ntActions n' t' = B * B) →
      (rotationallyAugment B N tr).ntActions n t = tr.ntActions n t) := by
  constructor
  · rw [rotAug_states_char B N tr n t c i j hn]
    rw [rotK_false_box B _
      (fun i' j' hi' hj' => hempty n hn t ht c hc i' hi' j' hj') _ i j hi hj]
    rw [hempty n hn t ht c hc i hi j hj]
  · intro hpass
    rw [rotAug_acts_char B N tr n t hn, hpass n hn t ht]
    have hind : ∀ i' j', actionIndicator B (B * B) i' j' = false := by
      intro i' j'
      simp [actionIndicator]
    rw [actionFromIndicator_false B _
      (fun i' j' => rotK_false_all B _ hind (rotClass N n) i' j')]

/-- Witness for `rotationally_augment_empty_board`: `B = 2`, `N = 4`,
`T = C = 1`, empty boards, all actions the pass index 4. -/
theorem rotationally_augment_empty_board_witness :
    ((∀ n', n' < 4 → ∀ t', t' < 1 → ∀ c', c' < 1 → ∀ i', i' < 2 →
        ∀ j', j' < 2 →
        (fun (_ _ _ _ _ : Nat) => false) n' t' c' i' j' = false) ∧
      3 < 4 ∧ 0 < 1 ∧ 0 < 1 ∧ 0 < 2 ∧ 0 < 2) ∧
    ((rotationallyAugment 2 4
        ⟨fun _ _ _ _ _ => false, fun _ _ => 4⟩).ntStates 3 0 0 0 0 =
      (fun (_ _ _ _ _ : Nat) => false) 3 0 0 0 0 ∧
    ((∀ n', n' < 4 → ∀ t', t' < 1 →
        (fun (_ _ : Nat) => 4) n' t' = 2 * 2) →
      (rotationallyAugment 2 4
          ⟨fun _ _ _ _ _ => false, fun _ _ => 4⟩).ntActions 3 0 =
        (fun (_ _ : Nat) => 4) 3 0)) :=
  ⟨⟨by decide, by decide, by decide, by decide, by decide, by decide⟩,
    rotationally_augment_empty_board 2 4 1 1
      ⟨fun _ _ _ _ _ => false, fun _ _ => 4⟩ 3 0 0 0 0
      (by decide) (by decide) (by decide) (by decide) (by decide) (by decide)⟩

/-- Counterexample to claim C7 as stated: two empty-board trajectory batches
on which the action tensor changes.  With `N = 4` the rotated group's action
0 (origin cell) is moved to cell index 2 by the 3-quarter-turn rotation; and
on a freshly allocated batch (`N = 1`, all-sentinel actions) the uint16
sentinel 65535 collapses to the pass index 9 through the indicator
round-trip.  In both cases every board state is empty, yet the returned
trajectory differs from the input. -/
theorem rotationally_augment_empty_counterexample :
    (rotationallyAugment 3 4
        ⟨fun _ _ _ _ _ => false, fun _ _ => 0⟩).ntActions 3 0 = 2 ∧
    (2 : Nat) ≠ 0 ∧
    (rotationallyAugment 3 1
        ⟨fun _ _ _ _ _ => false, fun _ _ => 65535⟩).ntActions 0 0 = 9 ∧
    (9 : Nat) ≠ 65535 := by
  refine ⟨by decide, by decide, by decide, by decide⟩

/-- Embedding of `losses.make_nt_mask(batch_size, total_steps, step)`: the
column mask `arange(total_steps) < step`, with `step` over `Int` (int32
arithmetic) so that a negative width yields the all-false mask. -/
def makeNtMask (step : Int) : Nat → Nat → Bool :=
  fun _ t => decide ((t : Int) < step)

/-- Embedding of `losses.compute_embed_loss` over exact rationals (the
bfloat16 casts are modelled as exact arithmetic and `lax.stop_gradient` on
the target as the identity): the mask-weighted sum over (instance, time) of
the squared euclidean distance between the two embeddings, divided by the
mask total. -/
def computeEmbedLoss (N T D : Nat)
    (transitionEmbeds targetEmbeds : Nat → Nat → Nat → ℚ)
    (ntMask : Nat → Nat → Bool) : ℚ :=
  (∑ n in Finset.range N, ∑ t in Finset.range T,
      (∑ d in Finset.range D,
        (transitionEmbeds n t d - targetEmbeds n t d) ^ 2) *
        (if ntMask n t then 1 else 0)) /
  (∑ n in Finset.range N, ∑ t in Finset.range T,
    if ntMask n t then (1 : ℚ) else 0)

/-- State dict threaded through `losses.update_k_step_losses`: the current
embeddings and the three cumulative losses (the threaded haiku model state
of the abstracted value/policy heads is outside the embedding). -/
structure KStepData where
  ntEmbeds : Nat → Nat → Nat → ℚ
  cumEmbedLoss : ℚ
  cumValLoss : ℚ
  cumPolicyLoss : ℚ

/-- Embedding of `losses.update_k_step_losses`.  The value and policy loss
terms involve transcendental functions (`log_sigmoid`, `softmax`) of the
abstract value/policy heads and are abstracted into the parameters `vTerm`
and `pTerm`; the embedding-consistency part is concrete: select the
transition embedding by the ground-truth action, roll it by -1 along the
time axis (`jnp.roll(nt_next_embeds, -1, axis=1)`), add the masked MSE
against the current embeddings under `lax.cond(total_steps - i - 1 > 0)`,
then replace the embeddings by the rolled selection. -/
def updateKStepLosses (N T D : Nat)
    (transitionModel : (Nat → ℚ) → Nat → Nat → ℚ)
    (ntActions : Nat → Nat → Nat)
    (vTerm pTerm : (Nat → Nat → Nat → ℚ) → Nat → ℚ)
    (i : Nat) (data : KStepData) : KStepData :=
  let ntNextEmbeds : Nat → Nat → Nat → ℚ :=
    fun n t => transitionModel (data.ntEmbeds n t) (ntActions n t)
  let ntHypotheticalEmbeds : Nat → Nat → Nat → ℚ :=
    fun n t => ntNextEmbeds n ((t + 1) % T)
  { ntEmbeds := ntHypotheticalEmbeds
    cumEmbedLoss := data.cumEmbedLoss +
      (if 0 < (T : Int) - i - 1 then
        computeEmbedLoss N T D ntHypotheticalEmbeds data.ntEmbeds
          (makeNtMask ((T : Int) - i - 1))
      else 0)
    cumValLoss := data.cumValLoss + vTerm data.ntEmbeds i
    cumPolicyLoss := data.cumPolicyLoss + pTerm data.ntEmbeds i }

/-- Embedding of `losses.compute_k_step_losses`: `fori_loop` of
`update_k_step_losses` over `i = 0 .. k-1` starting from the base embeddings
(the embed model applied to the real states) and zero cumulative losses. -/
def computeKStepLosses (N T D : Nat)
    (transitionModel : (Nat → ℚ) → Nat → Nat → ℚ)
    (ntActions : Nat → Nat → Nat)
    (vTerm pTerm : (Nat → Nat → Nat → ℚ) → Nat → ℚ)
    (baseEmbeds : Nat → Nat → Nat → ℚ) (k : Nat) : KStepData :=
  foriLoop (updateKStepLosses N T D transitionModel ntActions vTerm pTerm) k
    { ntEmbeds := baseEmbeds
      cumEmbedLoss := 0
      cumValLoss := 0
      cumPolicyLoss := 0 }

/-- Embedding of `losses.compute_k_step_total_loss`: the sum of the three
cumulative losses after `k` unroll iterations. -/
def computeKStepTotalLoss (N T D : Nat)
    (transitionModel : (Nat → ℚ) → Nat → Nat → ℚ)
    (ntActions : Nat → Nat → Nat)
    (vTerm pTerm : (Nat → Nat → Nat → ℚ) → Nat → ℚ)
    (baseEmbeds : Nat → Nat → Nat → ℚ) (k : Nat) : ℚ :=
  (computeKStepLosses N T D transitionModel ntActions vTerm pTerm baseEmbeds
      k).cumEmbedLoss +
  (computeKStepLosses N T D transitionModel ntActions vTerm pTerm baseEmbeds
      k).cumValLoss +
  (computeKStepLosses N T D transitionModel ntActions vTerm pTerm baseEmbeds
      k).cumPolicyLoss

/-- Formalisation of claim C3's wording for the iteration-0
embedding-consistency term (where "the current embeddings" are unambiguously
the base embeddings): mean squared error between the transition embedding
selected by the ground-truth action and the real next-step embedding — the
base embeddings shifted by one time step (the gradient-stopped target) —
masked to the first `T - i - 1` columns, and zero when `T - i - 1 ≤ 0`. -/
def claimEmbedLossTerm (N T D : Nat)
    (transitionModel : (Nat → ℚ) → Nat → Nat → ℚ)
    (ntActions : Nat → Nat → Nat)
    (baseEmbeds : Nat → Nat → Nat → ℚ) (i : Nat) : ℚ :=
  if 0 < (T : Int) - i - 1 then
    computeEmbedLoss N T D
      (fun n t => transitionModel (baseEmbeds n t) (ntActions n t))
      (fun n t => baseEmbeds n ((t + 1) % T))
      (makeNtMask ((T : Int) - i - 1))
  else 0

theorem sum_mul_ite_lt (f : Nat → ℚ) (m T : Nat) (hm : m ≤ T) :
    (∑ t in Finset.range T, f t * (if t < m then (1 : ℚ) else 0)) =
      ∑ t in Finset.range m, f t := by
  have h1 : (∑ t in Finset.range m, f t * (if t < m then (1 : ℚ) else 0)) =
      ∑ t in Finset.range T, f t * (if t < m then (1 : ℚ) else 0) :=
    Finset.sum_subset (Finset.range_subset.mpr hm)
      (fun x hx hnx => by rw [if_neg (by simpa using hnx), mul_zero])
  rw [← h1]
  apply Finset.sum_congr rfl
  intro x hx
  rw [if_pos (Finset.mem_range.mp hx), mul_one]

theorem sum_ite_lt_count (m T : Nat) (hm : m ≤ T) :
    (∑ t in Finset.range T, if t < m then (1 : ℚ) else 0) = (m : ℚ) := by
  have h := sum_mul_ite_lt (fun _ => (1 : ℚ)) m T hm
  simp only [one_mul] at h
  rw [h, Finset.sum_const, Finset.card_range, nsmul_eq_mul, mul_one]

/-- Claim C3 (amended): at every unroll iteration `i` the term added to the
cumulative embedding-consistency loss is the masked mean squared error
between the rolled selection `roll(selected, -1)` — slot `t` holds the
transition embedding selected by the ground-truth action at slot `t+1` —
and the CURRENT iteration's embeddings as gradient-stopped target (at
`i = 0` the unshifted base embeddings, not the base embeddings shifted by
one), over the first `T-i-1` time columns with denominator `N*(T-i-1)`;
whenever `T-i-1 ≤ 0` the term is exactly zero via `lax.cond`, and `k = 0`
yields zero cumulative embedding-consistency loss. -/
theorem k_step_embed_loss_characterization (N T D : Nat)
    (transitionModel : (Nat → ℚ) → Nat → Nat → ℚ)
    (ntActions : Nat → Nat → Nat)
    (vTerm pTerm : (Nat → Nat → Nat → ℚ) → Nat → ℚ)
    (baseEmbeds : Nat → Nat → Nat → ℚ) (i : Nat) (data : KStepData) :
    (computeKStepLosses N T D transitionModel ntActions vTerm pTerm baseEmbeds
        0).cumEmbedLoss = 0 ∧
    (updateKStepLosses N T D transitionModel ntActions vTerm pTerm i
        data).cumEmbedLoss =
      data.cumEmbedLoss +
        (if i + 1 < T then
          (∑ n in Finset.range N, ∑ t in Finset.range (T - i - 1),
            ∑ d in Finset.range D,
              (transitionModel (data.ntEmbeds n (t + 1)) (ntActions n (t + 1)) d -
                data.ntEmbeds n t d) ^ 2) /
            ((N : ℚ) * ((T - i - 1 : Nat) : ℚ))
        else 0) := by
  constructor
  · rfl
  · simp only [updateKStepLosses]
    congr 1
    by_cases hc : i + 1 < T
    · rw [if_pos (show (0 : Int) < (T : Int) - (i : Int) - 1 by omega),
        if_pos hc]
      unfold computeEmbedLoss makeNtMask
      simp only [decide_eq_true_eq]
      have hval : ∀ t : Nat,
          (if ((t : Int) < (T : Int) - (i : Int) - 1) then (1 : ℚ) else 0) =
            if t < T - i - 1 then (1 : ℚ) else 0 := by
        intro t
        by_cases h : (t : Int) < (T : Int) - (i : Int) - 1
        · rw [if_pos h, if_pos (by omega)]
        · rw [if_neg h, if_neg (by omega)]
      congr 1
      · apply Finset.sum_congr rfl
        intro n _
        rw [Finset.sum_congr rfl (fun t _ => by rw [hval t])]
        rw [sum_mul_ite_lt _ (T - i - 1) T (by omega)]
        apply Finset.sum_congr rfl
        intro t ht
        have hmod : (t + 1) % T = t + 1 :=
          Nat.mod_eq_of_lt (by
            have := Finset.mem_range.mp ht
            omega)
        rw [hmod]
      · rw [Finset.sum_congr rfl (fun n _ => by
          rw [Finset.sum_congr rfl (fun t _ => by rw [hval t]),
            sum_ite_lt_count (T - i - 1) T (by omega)])]
        rw [Finset.sum_const, Finset.card_range, nsmul_eq_mul]
    · rw [if_neg (show ¬(0 : Int) < (T : Int) - (i : Int) - 1 by omega),
        if_neg hc]

/-- Counterexample to claim C3 as stated: one instance, `T = 2`, scalar
embeddings `base = [0, 1]`, doubling transition model, action 0 everywhere,
`k = 1`.  The code's iteration-0 term pairs the selection at slot `t+1` with
the current embedding at slot `t`, giving `(2*1 - 0)^2 = 4`; the claim's
formula — selection at slot `t` against the base embedding at slot `t+1` —
gives `(2*0 - 1)^2 = 1`. -/
theorem embed_loss_pairing_counterexample :
    (computeKStepLosses 1 2 1 (fun e _ => fun d => 2 * e d) (fun _ _ => 0)
        (fun _ _ => 0) (fun _ _ => 0) (fun _ t _ => (t : ℚ)) 1).cumEmbedLoss = 4 ∧
    claimEmbedLossTerm 1 2 1 (fun e _ => fun d => 2 * e d) (fun _ _ => 0)
        (fun _ t _ => (t : ℚ)) 0 = 1 ∧
    (4 : ℚ) ≠ 1 := by
  refine ⟨?_, ?_, by norm_num⟩
  · norm_num [computeKStepLosses, foriLoop, updateKStepLosses, computeEmbedLoss,
      makeNtMask, Finset.sum_range_succ, Finset.sum_range_zero]
  · norm_num [claimEmbedLossTerm, computeEmbedLoss, makeNtMask,
      Finset.sum_range_succ, Finset.sum_range_zero]

end MuZeroGoJax
